import Mathlib

/-!
Verification of the coordinate/position engine of the `TimeCols` time-grid
component (`src/packages/timegrid/src/TimeCols.tsx`).

Times and pixel positions are modelled as rationals (the source works with
JavaScript numbers and all the claimed properties are stated at the level of
exact arithmetic).  A `Duration` is its millisecond count, a `DateMarker` is
its millisecond timestamp.  Reads of JavaScript arrays at a possibly
out-of-range index are modelled with `Option` (`none` standing for the
`undefined`/NaN outcome of such a read).
-/

namespace FC

/-- Modelled from the spec: `wholeDivideDurations` of `@fullcalendar/core`
(not under `src/`).  "Duration ... supports ... exact integer division by
another Duration (division yields either an integer count or
'not evenly divisible')."  Division by a zero duration is not a whole
division. -/
def wholeDivideDurations (numerator denominator : ℚ) : Option ℤ :=
  if denominator = 0 then none
  else if (numerator / denominator).den = 1 then some (numerator / denominator).num
  else none

/-- `TimeCols._processOptions`: parse `slotDuration` / optional `snapDuration`
into the computed options `(slotDuration, snapDuration, snapsPerSlot)`.
When `snapDuration` does not wholly divide `slotDuration`, fall back to
`snapDuration = slotDuration`, `snapsPerSlot = 1`. -/
def processOptions (slotOpt : ℚ) (snapOpt : Option ℚ) : ℚ × ℚ × ℤ :=
  let slotDuration := slotOpt
  let snapDuration := snapOpt.getD slotDuration
  match wholeDivideDurations slotDuration snapDuration with
  | some snapsPerSlot => (slotDuration, snapDuration, snapsPerSlot)
  | none => (slotDuration, slotDuration, 1)

/-- Modelled from the spec: `startOfDay` of `@fullcalendar/core` (not under
`src/`): "an absolute point in time ... with a well-defined 'start of day'
derivation" — the timestamp truncated to a whole number of days
(86400000 ms). -/
def startOfDay (d : ℚ) : ℚ := (⌊d / 86400000⌋ : ℚ) * 86400000

/-- A JavaScript array read `l[i]` at a signed index: `none` when the index is
out of range (JavaScript yields `undefined`). -/
def jsGet (l : List α) (i : ℤ) : Option α :=
  if i < 0 then none else l.get? i.toNat

/-- The state of a `TimeCols` instance that the coordinate and hit-test
functions read.  A position-cache entry is an `(offset, extent)` pair along
its axis: `slats` holds `(slatPositions.tops[i], slatPositions.getHeight(i))`,
`cols` holds `(colPositions.lefts[i], width)` with
`colPositions.rights[i] = offset + extent`.  `cells` holds
`props.cells[col].date`; `minTime` is `props.dateProfile.minTime` in rough
milliseconds. -/
structure TimeColsState where
  slats : List (ℚ × ℚ)
  cols : List (ℚ × ℚ)
  cells : List ℚ
  minTime : ℚ
  slotDuration : ℚ
  snapDuration : ℚ
  snapsPerSlot : ℤ
  eventMinHeight : ℚ

/-- The clamped floating-point slat coverage computed by `computeTimeTop`:
`(duration.milliseconds - asRoughMs(minTime)) / asRoughMs(slotDuration)`,
then `Math.max(0, ·)` and `Math.min(len, ·)`. -/
def slatCoverageOf (st : TimeColsState) (duration : ℚ) : ℚ :=
  min (st.slats.length : ℚ) (max 0 ((duration - st.minTime) / st.slotDuration))

/-- The slat index computed by `computeTimeTop`:
`Math.min(Math.floor(slatCoverage), len - 1)` (a signed integer; `-1` when
the slat list is empty). -/
def slatIndexOf (st : TimeColsState) (duration : ℚ) : ℤ :=
  min ⌊slatCoverageOf st duration⌋ ((st.slats.length : ℤ) - 1)

/-- `TimeCols.computeTimeTop`: the top coordinate of a given time
(duration since the column's day start).  The result is
`slatPositions.tops[slatIndex] + slatPositions.getHeight(slatIndex) * slatRemainder`;
`none` models the NaN produced when the array reads are out of range. -/
def computeTimeTop (st : TimeColsState) (duration : ℚ) : Option ℚ :=
  match jsGet st.slats (slatIndexOf st duration) with
  | some slat =>
      some (slat.1 + slat.2 * (slatCoverageOf st duration - (slatIndexOf st duration : ℚ)))
  | none => none

/-- `TimeCols.computeDateTop`: derive the duration since `startOfDayDate`
(or since `startOfDay(when)` when no day start is supplied) and delegate to
`computeTimeTop`. -/
def computeDateTop (st : TimeColsState) (when : ℚ) (startOfDayDate : Option ℚ) : Option ℚ :=
  computeTimeTop st (when - startOfDayDate.getD (startOfDay when))

/-- The spec's own description of `timeToPixel(duration)`, written from its
words: "compute `coverage = (duration − minTime) / slotDuration` as a
floating-point slot count; clamp `coverage` to `[0, slatCount]`; let
`index = floor(coverage)` clamped to `[0, slatCount − 1]`; let
`fraction = coverage − index`; result =
`slat.offset[index] + slat.extent[index] * fraction`". -/
def timeToPixelSpec (st : TimeColsState) (duration : ℚ) : ℚ :=
  let coverage := min (st.slats.length : ℚ) (max 0 ((duration - st.minTime) / st.slotDuration))
  let index : ℕ := min ⌊coverage⌋.toNat (st.slats.length - 1)
  let slat := st.slats.getD index (0, 0)
  slat.1 + slat.2 * (coverage - (index : ℚ))

/-- The slat index of `computeTimeTop` as a natural number (meaningful when
the slat list is non-empty, where the signed index is non-negative). -/
def idxN (st : TimeColsState) (duration : ℚ) : ℕ := (slatIndexOf st duration).toNat

/-- A `TimeColsSeg`: a time-ranged segment anchored to a column.  The
source's `end` field is called `finish` (`end` is a Lean keyword). -/
structure TimeColsSeg where
  col : ℕ
  start : ℚ
  finish : ℚ

/-- The per-segment body of `TimeCols.computeSegVerticals`:
`seg.top = computeDateTop(seg.start, dayDate)`,
`seg.bottom = Math.max(seg.top + eventMinHeight, computeDateTop(seg.end, dayDate))`
with `dayDate = props.cells[seg.col].date`; the result is the
`(top, bottom)` pair. -/
def computeSegVertical (st : TimeColsState) (seg : TimeColsSeg) : Option (ℚ × ℚ) :=
  match st.cells.get? seg.col with
  | none => none
  | some dayDate =>
    match computeDateTop st seg.start (some dayDate),
        computeDateTop st seg.finish (some dayDate) with
    | some top, some rawBottom => some (top, max (top + st.eventMinHeight) rawBottom)
    | _, _ => none

/-- `TimeCols.computeSegVerticals`: assign `(top, bottom)` to every segment
of the list. -/
def computeSegVerticals (st : TimeColsState) : List TimeColsSeg → Option (List (ℚ × ℚ))
  | [] => some []
  | seg :: rest =>
    match computeSegVertical st seg, computeSegVerticals st rest with
    | some v, some vs => some (v :: vs)
    | _, _ => none

/-- `TimeCols.generateSegVerticalCss` on a computed `(top, bottom)` pair:
the CSS style pair `{ top: seg.top, bottom: -seg.bottom }` ("flipped because
needs to be space beyond bottom edge of event container"). -/
def generateSegVerticalCss (v : ℚ × ℚ) : ℚ × ℚ := (v.1, -v.2)

/-- Modelled from the spec: `PositionCache.positionToIndex` (`leftToIndex` /
`topToIndex`) of `@fullcalendar/core` (not under `src/`): "binary/linear
scan returning the index whose `[offset, farEdge)` interval contains the
position, or 'not found' (null) if the position is outside" — the first
index whose half-open interval contains the position. -/
def positionToIndex : List (ℚ × ℚ) → ℚ → Option ℕ
  | [], _ => none
  | r :: rest, p =>
    if r.1 ≤ p ∧ p < r.1 + r.2 then some 0
    else (positionToIndex rest p).map Nat.succ

/-- The `relativeRect` of a hit. -/
structure RelativeRect where
  left : ℚ
  right : ℚ
  top : ℚ
  bottom : ℚ
  deriving DecidableEq

/-- The hit produced by `TimeCols.positionToHit` (the DOM-only `dayEl` field
is omitted; the date span's `{start, end}` range is `rangeStart` /
`rangeEnd`). -/
structure TimeColsHit where
  col : ℕ
  rangeStart : ℚ
  rangeEnd : ℚ
  relativeRect : RelativeRect
  deriving DecidableEq

/-- `TimeCols.positionToHit`: look the pointer position up in the column and
slat caches; when both indices are found, snap the vertical position to the
snap grid and build the hit.  The inner `Option` reads mirror the JavaScript
array accesses `cells[colIndex]`, `slatPositions.tops[slatIndex]`,
`colPositions.lefts[colIndex]` (always in range when the caches were built
over the same cells). -/
def positionToHit (st : TimeColsState) (positionLeft positionTop : ℚ) :
    Option TimeColsHit :=
  match positionToIndex st.cols positionLeft, positionToIndex st.slats positionTop with
  | some colIndex, some slatIndex =>
    match st.cells.get? colIndex, st.slats.get? slatIndex, st.cols.get? colIndex with
    | some dayDate, some slat, some col =>
      let slatTop := slat.1
      let slatHeight := slat.2
      let partialCoverage := (positionTop - slatTop) / slatHeight
      let localSnapIndex : ℤ := ⌊partialCoverage * (st.snapsPerSlot : ℚ)⌋
      let snapIndex : ℤ := (slatIndex : ℤ) * st.snapsPerSlot + localSnapIndex
      let time := st.minTime + st.snapDuration * (snapIndex : ℚ)
      let start := dayDate + time
      some { col := colIndex
             rangeStart := start
             rangeEnd := start + st.snapDuration
             relativeRect :=
               { left := col.1, right := col.1 + col.2
                 top := slatTop, bottom := slatTop + slatHeight } }
    | _, _, _ => none
  | _, _ => none

/-- A now-indicator marker node: a per-column line (`isArrow = false`,
`col = some c`) or the single axis arrow (`isArrow = true`, `col = none`),
placed at the `top` pixel offset. -/
structure NowIndicatorNode where
  isArrow : Bool
  col : Option ℕ
  top : Option ℚ

/-- `TimeCols._renderNowIndicator`: no nodes when `date` is absent; otherwise
one line node appended to each segment's column container plus one axis
arrow node when any segment exists, all at `computeDateTop(date)`. -/
def renderNowIndicator (st : TimeColsState) (date : Option ℚ)
    (segs : List TimeColsSeg) : List NowIndicatorNode :=
  match date with
  | none => []
  | some d =>
    let top := computeDateTop st d none
    segs.map (fun s => { isArrow := false, col := some s.col, top := top }) ++
      (if 0 < segs.length then [{ isArrow := true, col := none, top := top }] else [])

/-- The fixed concrete `TimeCols` state used by most witnesses: two slats of
30 px each, one 100 px column whose cell date is the epoch day, `minTime`
0 ms, `slotDuration` 30 min, `snapDuration` 15 min (2 snaps per slot),
minimum event height 5 px. -/
def demoState : TimeColsState :=
  { slats := [(0, 30), (30, 30)]
    cols := [(0, 100)]
    cells := [0]
    minTime := 0
    slotDuration := 1800000
    snapDuration := 900000
    snapsPerSlot := 2
    eventMinHeight := 5 }

/-- An auxiliary state with no slats (the un-built / zero-slat geometry). -/
def emptySlatState : TimeColsState :=
  { slats := []
    cols := []
    cells := []
    minTime := 0
    slotDuration := 1800000
    snapDuration := 1800000
    snapsPerSlot := 1
    eventMinHeight := 0 }

/-- The state of the spec's snap-computation example: `slotDuration` 60 min,
`snapDuration` 15 min (4 snaps per slot), slat index 2 covering
`[100, 130)` px. -/
def snapDemoState : TimeColsState :=
  { slats := [(0, 50), (50, 50), (100, 30), (130, 40)]
    cols := [(0, 100)]
    cells := [5]
    minTime := 0
    slotDuration := 3600000
    snapDuration := 900000
    snapsPerSlot := 4
    eventMinHeight := 5 }

end FC

namespace FC

theorem slatCoverageOf_nonneg (st : TimeColsState) (d : ℚ) : 0 ≤ slatCoverageOf st d :=
  le_min (Nat.cast_nonneg _) (le_max_left _ _)

theorem slatCoverageOf_le_len (st : TimeColsState) (d : ℚ) :
    slatCoverageOf st d ≤ (st.slats.length : ℚ) :=
  min_le_left _ _

theorem floor_slatCoverage_nonneg (st : TimeColsState) (d : ℚ) :
    0 ≤ ⌊slatCoverageOf st d⌋ :=
  Int.floor_nonneg.mpr (slatCoverageOf_nonneg st d)

theorem slatIndexOf_nonneg (st : TimeColsState) (d : ℚ) (hne : st.slats ≠ []) :
    0 ≤ slatIndexOf st d := by
  have h1 := floor_slatCoverage_nonneg st d
  have h2 : 0 < st.slats.length := List.length_pos.mpr hne
  have h3 : (1 : ℤ) ≤ (st.slats.length : ℤ) := by exact_mod_cast h2
  exact le_min h1 (by omega)

theorem slatIndexOf_lt_len (st : TimeColsState) (d : ℚ) :
    slatIndexOf st d < (st.slats.length : ℤ) :=
  lt_of_le_of_lt (min_le_right _ _) (by omega)

theorem idxN_lt_len (st : TimeColsState) (d : ℚ) (hne : st.slats ≠ []) :
    idxN st d < st.slats.length := by
  have h1 := slatIndexOf_nonneg st d hne
  have h2 := slatIndexOf_lt_len st d
  unfold idxN
  omega

theorem idxN_cast (st : TimeColsState) (d : ℚ) (hne : st.slats ≠ []) :
    ((idxN st d : ℤ) : ℚ) = ((slatIndexOf st d : ℤ) : ℚ) := by
  have := Int.toNat_of_nonneg (slatIndexOf_nonneg st d hne)
  unfold idxN
  exact_mod_cast congrArg (fun z : ℤ => (z : ℚ)) this

theorem jsGet_slats (st : TimeColsState) (d : ℚ) (hne : st.slats ≠ []) :
    jsGet st.slats (slatIndexOf st d) = some (st.slats.getD (idxN st d) (0, 0)) := by
  unfold jsGet
  rw [if_neg (not_lt.mpr (slatIndexOf_nonneg st d hne))]
  have hlt := idxN_lt_len st d hne
  have hidx : (slatIndexOf st d).toNat = idxN st d := rfl
  rw [hidx, List.getD_eq_get? st.slats (idxN st d) (0, 0), List.get?_eq_get hlt]
  rfl

/-- `computeTimeTop` on a non-empty slat list, with the index as a natural
number. -/
theorem computeTimeTop_eq (st : TimeColsState) (d : ℚ) (hne : st.slats ≠ []) :
    computeTimeTop st d =
      some ((st.slats.getD (idxN st d) (0, 0)).1 +
        (st.slats.getD (idxN st d) (0, 0)).2 *
          (slatCoverageOf st d - (idxN st d : ℚ))) := by
  unfold computeTimeTop
  rw [jsGet_slats st d hne]
  have h := idxN_cast st d hne
  push_cast at h
  rw [h]

theorem timeToPixelSpec_eq (st : TimeColsState) (d : ℚ) :
    timeToPixelSpec st d =
      (st.slats.getD (min ⌊slatCoverageOf st d⌋.toNat (st.slats.length - 1)) (0, 0)).1 +
        (st.slats.getD (min ⌊slatCoverageOf st d⌋.toNat (st.slats.length - 1)) (0, 0)).2 *
          (slatCoverageOf st d -
            ((min ⌊slatCoverageOf st d⌋.toNat (st.slats.length - 1) : ℕ) : ℚ)) :=
  rfl

theorem idxN_eq_min (st : TimeColsState) (d : ℚ) (hne : st.slats ≠ []) :
    idxN st d = min ⌊slatCoverageOf st d⌋.toNat (st.slats.length - 1) := by
  have h1 := floor_slatCoverage_nonneg st d
  have h2 : 0 < st.slats.length := List.length_pos.mpr hne
  unfold idxN slatIndexOf
  omega

theorem slatCoverage_of_le_minTime (st : TimeColsState) (d : ℚ)
    (hslot : 0 < st.slotDuration) (h : d ≤ st.minTime) : slatCoverageOf st d = 0 := by
  have hx : (d - st.minTime) / st.slotDuration ≤ 0 :=
    div_nonpos_of_nonpos_of_nonneg (sub_nonpos.mpr h) hslot.le
  unfold slatCoverageOf
  rw [max_eq_left hx]
  exact min_eq_right (Nat.cast_nonneg _)

/-- C2: `computeTimeTop` computes exactly the spec's `timeToPixel` formula
(coverage clamped to `[0, slatCount]`, index the floor clamped to
`[0, slatCount − 1]`, linear interpolation within the indexed slat); a
duration at or before `minTime` maps to the top of the first slat (pixel 0
when the first slat's offset is 0) and a duration at or past the visible
range maps to the bottom of the last slat — in every case a defined value,
never an error. -/
theorem computeTimeTop_matches_spec (st : TimeColsState) (d : ℚ)
    (hne : st.slats ≠ []) (hslot : 0 < st.slotDuration) :
    computeTimeTop st d = some (timeToPixelSpec st d) ∧
    (d ≤ st.minTime → computeTimeTop st d = some (st.slats.getD 0 (0, 0)).1) ∧
    ((st.slats.getD 0 (0, 0)).1 = 0 → d ≤ st.minTime → computeTimeTop st d = some 0) ∧
    (st.minTime + (st.slats.length : ℚ) * st.slotDuration ≤ d →
      computeTimeTop st d =
        some ((st.slats.getD (st.slats.length - 1) (0, 0)).1 +
          (st.slats.getD (st.slats.length - 1) (0, 0)).2)) := by
  have hlen : 0 < st.slats.length := List.length_pos.mpr hne
  have hmain : computeTimeTop st d = some (timeToPixelSpec st d) := by
    rw [computeTimeTop_eq st d hne, timeToPixelSpec_eq, ← idxN_eq_min st d hne]
  have hlow : d ≤ st.minTime → computeTimeTop st d = some (st.slats.getD 0 (0, 0)).1 := by
    intro h
    have hc := slatCoverage_of_le_minTime st d hslot h
    have hidx : idxN st d = 0 := by
      rw [idxN_eq_min st d hne, hc]
      simp
    rw [computeTimeTop_eq st d hne, hidx, hc]
    norm_num
  refine ⟨hmain, hlow, fun h0 h => by rw [hlow h, h0], ?_⟩
  intro h
  have hx : (st.slats.length : ℚ) ≤ (d - st.minTime) / st.slotDuration := by
    rw [le_div_iff hslot]
    linarith
  have hcov : slatCoverageOf st d = (st.slats.length : ℚ) := by
    unfold slatCoverageOf
    rw [max_eq_right (le_trans (Nat.cast_nonneg _) hx)]
    exact min_eq_left hx
  have hidx : idxN st d = st.slats.length - 1 := by
    rw [idxN_eq_min st d hne, hcov]
    rw [show ((st.slats.length : ℚ)) = ((st.slats.length : ℤ) : ℚ) by push_cast; ring,
      Int.floor_intCast]
    omega
  rw [computeTimeTop_eq st d hne, hidx, hcov]
  have hcast : ((st.slats.length - 1 : ℕ) : ℚ) = (st.slats.length : ℚ) - 1 := by
    have : (1 : ℕ) ≤ st.slats.length := hlen
    push_cast [this]
    ring
  rw [hcast]
  congr 1
  ring

/-- Witness for C2 at the demo state and the duration 15 min. -/
theorem computeTimeTop_matches_spec_witness :
    demoState.slats ≠ [] ∧ (0 : ℚ) < demoState.slotDuration ∧
    (computeTimeTop demoState 900000 = some (timeToPixelSpec demoState 900000) ∧
      ((900000 : ℚ) ≤ demoState.minTime →
        computeTimeTop demoState 900000 = some (demoState.slats.getD 0 (0, 0)).1) ∧
      ((demoState.slats.getD 0 (0, 0)).1 = 0 → (900000 : ℚ) ≤ demoState.minTime →
        computeTimeTop demoState 900000 = some 0) ∧
      (demoState.minTime + (demoState.slats.length : ℚ) * demoState.slotDuration ≤ 900000 →
        computeTimeTop demoState 900000 =
          some ((demoState.slats.getD (demoState.slats.length - 1) (0, 0)).1 +
            (demoState.slats.getD (demoState.slats.length - 1) (0, 0)).2))) :=
  ⟨List.cons_ne_nil _ _, by norm_num [demoState],
    computeTimeTop_matches_spec demoState 900000 (List.cons_ne_nil _ _)
      (by norm_num [demoState])⟩

/-- In an ordered, non-overlapping slat cache, the far edge of any earlier
slat lies at or above the offset of any later slat. -/
theorem slat_tops_chain (l : List (ℚ × ℚ))
    (hH : ∀ i < l.length, 0 ≤ (l.getD i (0, 0)).2)
    (hT : ∀ i, i + 1 < l.length →
      (l.getD i (0, 0)).1 + (l.getD i (0, 0)).2 ≤ (l.getD (i + 1) (0, 0)).1) :
    ∀ j i, i < j → j < l.length →
      (l.getD i (0, 0)).1 + (l.getD i (0, 0)).2 ≤ (l.getD j (0, 0)).1 := by
  intro j
  induction j with
  | zero => intro i hi; omega
  | succ j ih =>
    intro i hij hjlen
    rcases Nat.lt_succ_iff_lt_or_eq.mp hij with h | h
    · have h1 := ih i h (by omega)
      have h2 := hT j hjlen
      have h3 := hH j (by omega)
      linarith
    · subst h
      exact hT i hjlen

/-- The within-slat linear interpolation of `computeTimeTop` is monotone in
the clamped coverage, given an ordered, non-overlapping slat cache. -/
theorem interp_mono (l : List (ℚ × ℚ)) (hne : l ≠ [])
    (hH : ∀ i < l.length, 0 ≤ (l.getD i (0, 0)).2)
    (hT : ∀ i, i + 1 < l.length →
      (l.getD i (0, 0)).1 + (l.getD i (0, 0)).2 ≤ (l.getD (i + 1) (0, 0)).1)
    (c1 c2 : ℚ) (h0 : 0 ≤ c1) (h12 : c1 ≤ c2) (h2 : c2 ≤ (l.length : ℚ)) :
    (l.getD (min ⌊c1⌋.toNat (l.length - 1)) (0, 0)).1 +
      (l.getD (min ⌊c1⌋.toNat (l.length - 1)) (0, 0)).2 *
        (c1 - ((min ⌊c1⌋.toNat (l.length - 1) : ℕ) : ℚ)) ≤
    (l.getD (min ⌊c2⌋.toNat (l.length - 1)) (0, 0)).1 +
      (l.getD (min ⌊c2⌋.toNat (l.length - 1)) (0, 0)).2 *
        (c2 - ((min ⌊c2⌋.toNat (l.length - 1) : ℕ) : ℚ)) := by
  have hlen : 0 < l.length := List.length_pos.mpr hne
  set i1 := min ⌊c1⌋.toNat (l.length - 1) with hi1
  set i2 := min ⌊c2⌋.toNat (l.length - 1) with hi2
  have hf1 : 0 ≤ ⌊c1⌋ := Int.floor_nonneg.mpr h0
  have hf2 : 0 ≤ ⌊c2⌋ := Int.floor_nonneg.mpr (le_trans h0 h12)
  have hfmono : ⌊c1⌋ ≤ ⌊c2⌋ := Int.floor_le_floor h12
  have hi12 : i1 ≤ i2 := by omega
  have hi1lt : i1 < l.length := by omega
  have hi2lt : i2 < l.length := by omega
  have hc1ge : (i1 : ℚ) ≤ c1 := by
    have ha : (i1 : ℤ) ≤ ⌊c1⌋ := by omega
    calc (i1 : ℚ) = ((i1 : ℤ) : ℚ) := by push_cast; ring
    _ ≤ ((⌊c1⌋ : ℤ) : ℚ) := by exact_mod_cast ha
    _ ≤ c1 := Int.floor_le c1
  have hc2ge : (i2 : ℚ) ≤ c2 := by
    have ha : (i2 : ℤ) ≤ ⌊c2⌋ := by omega
    calc (i2 : ℚ) = ((i2 : ℤ) : ℚ) := by push_cast; ring
    _ ≤ ((⌊c2⌋ : ℤ) : ℚ) := by exact_mod_cast ha
    _ ≤ c2 := Int.floor_le c2
  have hub : c1 - (i1 : ℚ) ≤ 1 := by
    by_cases hcase : ⌊c1⌋.toNat ≤ l.length - 1
    · have he : i1 = ⌊c1⌋.toNat := by omega
      have hcast : ((i1 : ℕ) : ℚ) = ((⌊c1⌋ : ℤ) : ℚ) := by
        rw [he]
        exact_mod_cast congrArg (fun z : ℤ => (z : ℚ)) (Int.toNat_of_nonneg hf1)
      have := Int.lt_floor_add_one c1
      rw [hcast]
      linarith
    · have he : i1 = l.length - 1 := by omega
      have hcast : ((i1 : ℕ) : ℚ) = (l.length : ℚ) - 1 := by
        rw [he]
        have : (1 : ℕ) ≤ l.length := hlen
        push_cast [this]
        ring
      rw [hcast]
      linarith
  rcases eq_or_lt_of_le hi12 with heq | hlt
  · rw [← heq]
    have h3 : 0 ≤ (l.getD i1 (0, 0)).2 := hH i1 hi1lt
    have h4 : c1 - (i1 : ℚ) ≤ c2 - (i1 : ℚ) := by linarith
    nlinarith
  · have hHi1 := hH i1 hi1lt
    have hHi2 := hH i2 hi2lt
    have hchain := slat_tops_chain l hH hT i2 i1 hlt hi2lt
    nlinarith

/-- C3: `computeTimeTop` is monotonically non-decreasing in the duration on
`[minTime, minTime + slatCount · slotDuration]`, under the cache invariant
that slat extents are non-negative and consecutive slats are ordered
top-to-bottom without overlap. -/
theorem computeTimeTop_monotone (st : TimeColsState) (d1 d2 p1 p2 : ℚ)
    (hne : st.slats ≠ []) (hslot : 0 < st.slotDuration)
    (hH : ∀ i < st.slats.length, 0 ≤ (st.slats.getD i (0, 0)).2)
    (hT : ∀ i, i + 1 < st.slats.length →
      (st.slats.getD i (0, 0)).1 + (st.slats.getD i (0, 0)).2 ≤
        (st.slats.getD (i + 1) (0, 0)).1)
    (hlow : st.minTime ≤ d1) (h12 : d1 ≤ d2)
    (hhigh : d2 ≤ st.minTime + (st.slats.length : ℚ) * st.slotDuration)
    (e1 : computeTimeTop st d1 = some p1) (e2 : computeTimeTop st d2 = some p2) :
    p1 ≤ p2 := by
  rw [computeTimeTop_eq st d1 hne] at e1
  rw [computeTimeTop_eq st d2 hne] at e2
  injection e1 with e1
  injection e2 with e2
  rw [← e1, ← e2, idxN_eq_min st d1 hne, idxN_eq_min st d2 hne]
  have hcov : slatCoverageOf st d1 ≤ slatCoverageOf st d2 := by
    unfold slatCoverageOf
    apply min_le_min (le_refl _)
    apply max_le_max (le_refl _)
    have hsub : d1 - st.minTime ≤ d2 - st.minTime := by linarith
    exact (div_le_div_right hslot).mpr hsub
  exact interp_mono st.slats hne hH hT _ _ (slatCoverageOf_nonneg st d1) hcov
    (slatCoverageOf_le_len st d2)

/-- Witness for C3 at the demo state: the pixel of duration 0 (top, 0 px) is
at or above the pixel of duration 30 min (30 px). -/
theorem computeTimeTop_monotone_witness :
    demoState.slats ≠ [] ∧ (0 : ℚ) < demoState.slotDuration ∧
    (∀ i < demoState.slats.length, 0 ≤ (demoState.slats.getD i (0, 0)).2) ∧
    (∀ i, i + 1 < demoState.slats.length →
      (demoState.slats.getD i (0, 0)).1 + (demoState.slats.getD i (0, 0)).2 ≤
        (demoState.slats.getD (i + 1) (0, 0)).1) ∧
    demoState.minTime ≤ (0 : ℚ) ∧ (0 : ℚ) ≤ 1800000 ∧
    (1800000 : ℚ) ≤ demoState.minTime +
      (demoState.slats.length : ℚ) * demoState.slotDuration ∧
    computeTimeTop demoState 0 = some 0 ∧
    computeTimeTop demoState 1800000 = some 30 ∧
    (0 : ℚ) ≤ 30 := by
  have hH : ∀ i < demoState.slats.length, 0 ≤ (demoState.slats.getD i (0, 0)).2 := by
    intro i hi
    have h2 : i < 2 := by simpa [demoState] using hi
    interval_cases i <;> norm_num [demoState]
  have hT : ∀ i, i + 1 < demoState.slats.length →
      (demoState.slats.getD i (0, 0)).1 + (demoState.slats.getD i (0, 0)).2 ≤
        (demoState.slats.getD (i + 1) (0, 0)).1 := by
    intro i hi
    have h2 : i = 0 := by
      simp only [demoState, List.length] at hi
      omega
    subst h2
    norm_num [demoState]
  have e1 : computeTimeTop demoState 0 = some 0 := by
    norm_num [computeTimeTop, demoState, slatCoverageOf, slatIndexOf, jsGet]
  have e2 : computeTimeTop demoState 1800000 = some 30 := by
    norm_num [computeTimeTop, demoState, slatCoverageOf, slatIndexOf, jsGet]
  refine ⟨List.cons_ne_nil _ _, by norm_num [demoState], hH, hT, by norm_num [demoState],
    by norm_num, by norm_num [demoState], e1, e2, ?_⟩
  exact computeTimeTop_monotone demoState 0 1800000 0 30 (List.cons_ne_nil _ _)
    (by norm_num [demoState]) hH hT (by norm_num [demoState]) (by norm_num)
    (by norm_num [demoState]) e1 e2

/-- C10: with at least one slat, `computeTimeTop`'s clamped slat index stays
in `[0, slatCount − 1]` and the cache reads are in bounds, yielding a value
for every duration; with an empty slat list, the clamp
`Math.min(slatIndex, len − 1)` yields `-1` and the function reads outside the
position cache (`none` models the resulting undefined read) instead of
failing with a defined error. -/
theorem computeTimeTop_empty_slat_list (st : TimeColsState) (d : ℚ) :
    (st.slats ≠ [] →
      0 ≤ slatIndexOf st d ∧ slatIndexOf st d < (st.slats.length : ℤ) ∧
        computeTimeTop st d =
          some ((st.slats.getD (idxN st d) (0, 0)).1 +
            (st.slats.getD (idxN st d) (0, 0)).2 *
              (slatCoverageOf st d - (idxN st d : ℚ)))) ∧
    (st.slats = [] → slatIndexOf st d = -1 ∧ computeTimeTop st d = none) := by
  constructor
  · intro hne
    exact ⟨slatIndexOf_nonneg st d hne, slatIndexOf_lt_len st d, computeTimeTop_eq st d hne⟩
  · intro hnil
    have h1 : min ((0 : ℚ)) (max 0 ((d - st.minTime) / st.slotDuration)) = 0 :=
      min_eq_left (le_max_left _ _)
    have hidx : slatIndexOf st d = -1 := by
      unfold slatIndexOf slatCoverageOf
      rw [hnil]
      simp only [List.length_nil, Nat.cast_zero, CharP.cast_eq_zero]
      rw [h1, Int.floor_zero]
      omega
    refine ⟨hidx, ?_⟩
    unfold computeTimeTop
    rw [hidx]
    have : jsGet st.slats (-1) = none := by
      unfold jsGet
      norm_num
    rw [this]

/-- Witness for C10: the in-range index at the demo state, the `-1` index
and absent read at the empty-slat state. -/
theorem computeTimeTop_empty_slat_list_witness :
    demoState.slats ≠ [] ∧ emptySlatState.slats = [] ∧
    0 ≤ slatIndexOf demoState 0 ∧
    slatIndexOf emptySlatState 0 = -1 ∧ computeTimeTop emptySlatState 0 = none :=
  ⟨List.cons_ne_nil _ _, rfl,
    ((computeTimeTop_empty_slat_list demoState 0).1 (List.cons_ne_nil _ _)).1,
    ((computeTimeTop_empty_slat_list emptySlatState 0).2 rfl).1,
    ((computeTimeTop_empty_slat_list emptySlatState 0).2 rfl).2⟩

/-- C1: whenever the configured `snapDuration` does not evenly divide
`slotDuration`, `_processOptions` falls back to `snapDuration = slotDuration`
and `snapsPerSlot = 1` (it is a total function, so no exception is raised);
and for every configuration of positive durations the resulting
`snapsPerSlot` is an integer ≥ 1. -/
theorem processOptions_fallback (slot : ℚ) (snapOpt : Option ℚ)
    (hslot : 0 < slot) (hsnap : 0 < snapOpt.getD slot) :
    ((¬ ∃ n : ℤ, slot = snapOpt.getD slot * n) →
        processOptions slot snapOpt = (slot, slot, 1)) ∧
    1 ≤ (processOptions slot snapOpt).2.2 := by
  set s := snapOpt.getD slot with hs
  have hsne : s ≠ 0 := ne_of_gt hsnap
  have hdiv_pos : 0 < slot / s := div_pos hslot hsnap
  constructor
  · intro hnot
    have hden : (slot / s).den ≠ 1 := by
      intro hden1
      apply hnot
      refine ⟨(slot / s).num, ?_⟩
      have h1 : ((slot / s).num : ℚ) = slot / s := (Rat.den_eq_one_iff _).mp hden1
      rw [mul_comm, h1]
      exact (div_mul_cancel₀ slot hsne).symm
    simp only [processOptions, wholeDivideDurations, ← hs, if_neg hsne, if_neg hden]
  · by_cases hden : (slot / s).den = 1
    · have hnum : 1 ≤ (slot / s).num := by
        have : 0 < (slot / s).num := Rat.num_pos.mpr hdiv_pos
        omega
      simp only [processOptions, wholeDivideDurations, ← hs, if_neg hsne, if_pos hden]
      exact hnum
    · simp only [processOptions, wholeDivideDurations, ← hs, if_neg hsne, if_neg hden]
      exact le_refl 1

/-- Witness for C1 at the degenerate configuration
`slotDuration = 45min`, `snapDuration = 20min` (milliseconds). -/
theorem processOptions_fallback_witness :
    (0 : ℚ) < 2700000 ∧ (0 : ℚ) < (some (1200000 : ℚ)).getD 2700000 ∧
    (((¬ ∃ n : ℤ, (2700000 : ℚ) = (some (1200000 : ℚ)).getD 2700000 * n) →
        processOptions 2700000 (some 1200000) = (2700000, 2700000, 1)) ∧
      1 ≤ (processOptions 2700000 (some (1200000 : ℚ))).2.2) :=
  ⟨by norm_num, by norm_num,
    processOptions_fallback 2700000 (some 1200000) (by norm_num) (by norm_num)⟩

/-- A found index of `positionToIndex` points at a region whose half-open
`[offset, offset + extent)` interval contains the position. -/
theorem positionToIndex_some_mem (l : List (ℚ × ℚ)) (p : ℚ) :
    ∀ i, positionToIndex l p = some i →
      ∃ r, l.get? i = some r ∧ r.1 ≤ p ∧ p < r.1 + r.2 := by
  induction l with
  | nil => intro i h; exact absurd h (by simp [positionToIndex])
  | cons r rest ih =>
    intro i h
    by_cases hr : r.1 ≤ p ∧ p < r.1 + r.2
    · rw [positionToIndex, if_pos hr] at h
      injection h with h
      exact h ▸ ⟨r, rfl, hr⟩
    · rw [positionToIndex, if_neg hr] at h
      rcases Option.map_eq_some'.mp h with ⟨j, hj, hij⟩
      rcases ih j hj with ⟨s, hs, hps⟩
      exact ⟨s, by rw [← hij]; exact hs, hps⟩

/-- `positionToIndex` reports "not found" exactly when the position lies
outside the union of the regions' half-open intervals. -/
theorem positionToIndex_none_iff (l : List (ℚ × ℚ)) (p : ℚ) :
    positionToIndex l p = none ↔ ∀ r ∈ l, ¬(r.1 ≤ p ∧ p < r.1 + r.2) := by
  induction l with
  | nil => simp [positionToIndex]
  | cons r rest ih =>
    by_cases hr : r.1 ≤ p ∧ p < r.1 + r.2
    · rw [positionToIndex, if_pos hr]
      simp only [List.mem_cons]
      constructor
      · intro h; exact absurd h (by simp)
      · intro h; exact absurd hr (h r (Or.inl rfl))
    · rw [positionToIndex, if_neg hr]
      simp only [Option.map_eq_none', ih, List.mem_cons]
      constructor
      · intro h s hs
        rcases hs with hs | hs
        · exact hs ▸ hr
        · exact h s hs
      · intro h s hs
        exact h s (Or.inr hs)

/-- A found index is in range. -/
theorem positionToIndex_lt_length (l : List (ℚ × ℚ)) (p : ℚ) (i : ℕ)
    (h : positionToIndex l p = some i) : i < l.length := by
  rcases positionToIndex_some_mem l p i h with ⟨r, hr, _⟩
  exact List.get?_eq_some.mp hr |>.1

/-- Unfolding of a successful per-segment vertical computation. -/
theorem computeSegVertical_elim (st : TimeColsState) (seg : TimeColsSeg) (v : ℚ × ℚ)
    (hv : computeSegVertical st seg = some v) :
    ∃ dayDate rawBottom, st.cells.get? seg.col = some dayDate ∧
      computeDateTop st seg.start (some dayDate) = some v.1 ∧
      computeDateTop st seg.finish (some dayDate) = some rawBottom ∧
      v.2 = max (v.1 + st.eventMinHeight) rawBottom := by
  unfold computeSegVertical at hv
  split at hv
  · exact absurd hv (by simp)
  · rename_i dayDate e1
    split at hv
    · rename_i top rawBottom e2 e3
      injection hv with hv
      refine ⟨dayDate, rawBottom, e1, ?_, e3, ?_⟩
      · rw [← hv]
        exact e2
      · rw [← hv]
    · exact absurd hv (by simp)

/-- The stored bottom is at least `top + eventMinHeight`. -/
theorem computeSegVertical_bottom (st : TimeColsState) (seg : TimeColsSeg) (v : ℚ × ℚ)
    (hv : computeSegVertical st seg = some v) :
    v.1 + st.eventMinHeight ≤ v.2 := by
  rcases computeSegVertical_elim st seg v hv with ⟨_, _, _, _, _, hmax⟩
  rw [hmax]
  exact le_max_left _ _

/-- Every element on the right of a `Forall₂` has a related element on the
left. -/
theorem forall₂_right_mem {α β : Type} {R : α → β → Prop} {as : List α} {bs : List β}
    (h : List.Forall₂ R as bs) : ∀ b ∈ bs, ∃ a, R a b := by
  induction h with
  | nil => intro b hb; exact absurd hb (by simp)
  | cons hr _ ih =>
    intro b hb
    rcases List.mem_cons.mp hb with hb | hb
    · exact ⟨_, hb ▸ hr⟩
    · exact ih b hb

/-- C4: a successful `computeSegVerticals` pairs every input segment with a
`(top, bottom)` where `top = dateToPixel(seg.start, dayStart)` of the
segment's own column and
`bottom = max(top + minEventHeight, dateToPixel(seg.end, dayStart))`;
consequently every processed segment satisfies
`bottom ≥ top + minEventHeight`. -/
theorem computeSegVerticals_spec (st : TimeColsState) (segs : List TimeColsSeg)
    (out : List (ℚ × ℚ)) (h : computeSegVerticals st segs = some out) :
    List.Forall₂ (fun seg v => computeSegVertical st seg = some v) segs out ∧
    (∀ seg v, computeSegVertical st seg = some v →
      ∃ dayDate rawBottom, st.cells.get? seg.col = some dayDate ∧
        computeDateTop st seg.start (some dayDate) = some v.1 ∧
        computeDateTop st seg.finish (some dayDate) = some rawBottom ∧
        v.2 = max (v.1 + st.eventMinHeight) rawBottom) ∧
    ∀ v ∈ out, v.1 + st.eventMinHeight ≤ v.2 := by
  have hall : List.Forall₂ (fun seg v => computeSegVertical st seg = some v) segs out := by
    induction segs generalizing out with
    | nil =>
      rw [computeSegVerticals] at h
      injection h with h
      rw [← h]
      exact List.Forall₂.nil
    | cons seg rest ih =>
      rw [computeSegVerticals] at h
      cases e1 : computeSegVertical st seg with
      | none => rw [e1] at h; exact absurd h (by simp)
      | some v =>
        cases e2 : computeSegVerticals st rest with
        | none => rw [e1, e2] at h; exact absurd h (by simp)
        | some vs =>
          rw [e1, e2] at h
          injection h with h
          rw [← h]
          exact List.Forall₂.cons e1 (ih vs e2)
  refine ⟨hall, fun seg v hv => computeSegVertical_elim st seg v hv, ?_⟩
  intro v hv
  rcases forall₂_right_mem hall v hv with ⟨seg, hr⟩
  exact computeSegVertical_bottom st seg v hr

/-- Witness for C4: a single 15-to-20-minute segment in the demo state gets
`top = 15` px and `bottom = max(15 + 5, 20) = 20` px. -/
theorem computeSegVerticals_spec_witness :
    computeSegVerticals demoState [⟨0, 900000, 1200000⟩] = some [(15, 20)] ∧
    (List.Forall₂ (fun seg v => computeSegVertical demoState seg = some v)
        [⟨0, 900000, 1200000⟩] [(15, 20)] ∧
      (∀ seg v, computeSegVertical demoState seg = some v →
        ∃ dayDate rawBottom, demoState.cells.get? seg.col = some dayDate ∧
          computeDateTop demoState seg.start (some dayDate) = some v.1 ∧
          computeDateTop demoState seg.finish (some dayDate) = some rawBottom ∧
          v.2 = max (v.1 + demoState.eventMinHeight) rawBottom) ∧
      ∀ v ∈ [((15 : ℚ), (20 : ℚ))], v.1 + demoState.eventMinHeight ≤ v.2) := by
  have he : computeSegVerticals demoState [⟨0, 900000, 1200000⟩] = some [(15, 20)] := by
    norm_num [computeSegVerticals, computeSegVertical, computeDateTop, computeTimeTop,
      slatCoverageOf, slatIndexOf, jsGet, demoState]
  exact ⟨he, computeSegVerticals_spec demoState [⟨0, 900000, 1200000⟩] [(15, 20)] he⟩

/-- C9 counterexample: in the demo state (60 px of slats) the
15-to-20-minute segment's stored `bottom` is `20` — exactly the absolute
top-relative pixel `dateToPixel(seg.end)` — while the distance from the slat
container's bottom edge (at 60 px) would be `40 ≠ 20`. -/
theorem segBottom_is_top_relative :
    computeSegVertical demoState ⟨0, 900000, 1200000⟩ = some (15, 20) ∧
    computeDateTop demoState 1200000 (some 0) = some 20 ∧
    ((demoState.slats.getD 1 (0, 0)).1 + (demoState.slats.getD 1 (0, 0)).2) - 20 ≠
      (20 : ℚ) := by
  refine ⟨?_, ?_, by norm_num [demoState]⟩ <;>
    norm_num [computeSegVertical, computeDateTop, computeTimeTop,
      slatCoverageOf, slatIndexOf, jsGet, demoState]

/-- C9 (amended): `computeSegVerticals` stores `bottom` in the same
top-relative pixel frame as `top` (the pixel of the segment end, floored at
`top + minEventHeight`); the inversion to a bottom-anchored distance happens
only in `generateSegVerticalCss`, which applies the pair
`(top, -bottom)` — a top offset plus a distance-from-bottom style value
rather than top plus height. -/
theorem generateSegVerticalCss_pair (st : TimeColsState) (seg : TimeColsSeg)
    (v : ℚ × ℚ) (hv : computeSegVertical st seg = some v) :
    (∃ dayDate rawBottom, st.cells.get? seg.col = some dayDate ∧
      computeDateTop st seg.start (some dayDate) = some v.1 ∧
      computeDateTop st seg.finish (some dayDate) = some rawBottom ∧
      v.2 = max (v.1 + st.eventMinHeight) rawBottom) ∧
    generateSegVerticalCss v = (v.1, -v.2) :=
  ⟨computeSegVertical_elim st seg v hv, rfl⟩

/-- When both cache lookups find an index and the column caches were built
over the cells row, every inner array read of `positionToHit` succeeds and
the hit is the explicit snap record. -/
theorem positionToHit_of_found (st : TimeColsState) (x y : ℚ) (ci si : ℕ)
    (e1 : positionToIndex st.cols x = some ci)
    (e2 : positionToIndex st.slats y = some si)
    (hcells : st.cols.length ≤ st.cells.length) :
    ∃ dayDate slat col,
      st.cells.get? ci = some dayDate ∧ st.slats.get? si = some slat ∧
        st.cols.get? ci = some col ∧
        positionToHit st x y = some
          { col := ci
            rangeStart := dayDate + (st.minTime + st.snapDuration *
              ((((si : ℤ) * st.snapsPerSlot +
                ⌊(y - slat.1) / slat.2 * (st.snapsPerSlot : ℚ)⌋ : ℤ)) : ℚ))
            rangeEnd := dayDate + (st.minTime + st.snapDuration *
              ((((si : ℤ) * st.snapsPerSlot +
                ⌊(y - slat.1) / slat.2 * (st.snapsPerSlot : ℚ)⌋ : ℤ)) : ℚ)) +
              st.snapDuration
            relativeRect :=
              { left := (col.1 : ℚ), right := col.1 + col.2
                top := slat.1, bottom := slat.1 + slat.2 } } := by
  have hci : ci < st.cols.length := positionToIndex_lt_length _ _ _ e1
  have hsi : si < st.slats.length := positionToIndex_lt_length _ _ _ e2
  have hcell : ci < st.cells.length := lt_of_lt_of_le hci hcells
  refine ⟨st.cells.get ⟨ci, hcell⟩, st.slats.get ⟨si, hsi⟩, st.cols.get ⟨ci, hci⟩,
    List.get?_eq_get hcell, List.get?_eq_get hsi, List.get?_eq_get hci, ?_⟩
  unfold positionToHit
  rw [e1, e2]
  dsimp only
  rw [List.get?_eq_get hcell, List.get?_eq_get hsi, List.get?_eq_get hci]

/-- C5: `positionToHit` returns no hit exactly when the column lookup on `x`
or the slat lookup on `y` reports "not found"; a position outside the union
of the column intervals, or outside the union of the slat intervals,
therefore yields no hit, and a hit is produced only when both indices are
found (the caches being built over at least as many cells as columns). -/
theorem positionToHit_none_iff (st : TimeColsState) (x y : ℚ)
    (hcells : st.cols.length ≤ st.cells.length) :
    (positionToHit st x y = none ↔
      (positionToIndex st.cols x = none ∨ positionToIndex st.slats y = none)) ∧
    ((∀ r ∈ st.cols, ¬(r.1 ≤ x ∧ x < r.1 + r.2)) → positionToHit st x y = none) ∧
    ((∀ r ∈ st.slats, ¬(r.1 ≤ y ∧ y < r.1 + r.2)) → positionToHit st x y = none) ∧
    (∀ hit, positionToHit st x y = some hit →
      ∃ ci si, positionToIndex st.cols x = some ci ∧
        positionToIndex st.slats y = some si) := by
  have hiff : positionToHit st x y = none ↔
      (positionToIndex st.cols x = none ∨ positionToIndex st.slats y = none) := by
    cases e1 : positionToIndex st.cols x with
    | none =>
      have hn : positionToHit st x y = none := by
        unfold positionToHit
        rw [e1]
      simp [hn]
    | some ci =>
      cases e2 : positionToIndex st.slats y with
      | none =>
        have hn : positionToHit st x y = none := by
          unfold positionToHit
          rw [e1, e2]
        simp [hn]
      | some si =>
        obtain ⟨dayDate, slat, col, _, _, _, heq⟩ :=
          positionToHit_of_found st x y ci si e1 e2 hcells
        rw [heq]
        simp
  refine ⟨hiff, ?_, ?_, ?_⟩
  · intro h
    exact hiff.mpr (Or.inl ((positionToIndex_none_iff _ _).mpr h))
  · intro h
    exact hiff.mpr (Or.inr ((positionToIndex_none_iff _ _).mpr h))
  · intro hit hhit
    cases e1 : positionToIndex st.cols x with
    | none =>
      rw [hiff.mpr (Or.inl e1)] at hhit
      exact absurd hhit (by simp)
    | some ci =>
      cases e2 : positionToIndex st.slats y with
      | none =>
        rw [hiff.mpr (Or.inr e2)] at hhit
        exact absurd hhit (by simp)
      | some si => exact ⟨ci, si, rfl, rfl⟩

/-- Witness for C5 at the spec's example grid (one 100 px column, one slat):
`hitTest(150, 10)` is no hit, `hitTest(50, 10)` hits column 0. -/
theorem positionToHit_none_iff_witness :
    demoState.cols.length ≤ demoState.cells.length ∧
    (positionToHit demoState 150 10 = none ↔
      (positionToIndex demoState.cols 150 = none ∨
        positionToIndex demoState.slats 10 = none)) ∧
    positionToIndex demoState.cols 150 = none ∧
    positionToHit demoState 150 10 = none ∧
    (positionToHit demoState 50 10).isSome := by
  have h := positionToHit_none_iff demoState 150 10 (by norm_num [demoState])
  have e1 : positionToIndex demoState.cols 150 = none := by
    norm_num [positionToIndex, demoState]
  refine ⟨by norm_num [demoState], h.1, e1, h.1.mpr (Or.inl e1), ?_⟩
  have e2 : positionToIndex demoState.cols 50 = some 0 := by
    norm_num [positionToIndex, demoState]
  have e3 : positionToIndex demoState.slats 10 = some 0 := by
    norm_num [positionToIndex, demoState]
  obtain ⟨dayDate, slat, col, _, _, _, heq⟩ :=
    positionToHit_of_found demoState 50 10 0 0 e2 e3 (by norm_num [demoState])
  rw [heq]
  rfl

/-- C7: zero-extent slat regions are unmatchable by the slat index lookup:
a found slat index always has strictly positive (hence non-zero) extent, so
the partial fraction division `(positionTop − slatTop) / slatHeight` inside
`positionToHit` is never a division by zero and all its arithmetic is
defined. -/
theorem positionToIndex_zero_extent_unmatchable (st : TimeColsState) (y : ℚ) :
    (∀ si, positionToIndex st.slats y = some si →
      ∃ slat, st.slats.get? si = some slat ∧ 0 < slat.2 ∧ slat.2 ≠ 0) ∧
    (∀ i slat, st.slats.get? i = some slat → slat.2 = 0 →
      positionToIndex st.slats y ≠ some i) := by
  constructor
  · intro si h
    rcases positionToIndex_some_mem _ _ _ h with ⟨slat, hs, h1, h2⟩
    have hpos : 0 < slat.2 := by linarith
    exact ⟨slat, hs, hpos, ne_of_gt hpos⟩
  · intro i slat hget hz h
    rcases positionToIndex_some_mem _ _ _ h with ⟨s, hs, h1, h2⟩
    rw [hget] at hs
    injection hs with hs
    subst hs
    rw [hz] at h2
    linarith

/-- An auxiliary state whose first slat has zero extent. -/
def zeroExtentState : TimeColsState :=
  { slats := [(0, 0), (0, 30)]
    cols := [(0, 100)]
    cells := [0]
    minTime := 0
    slotDuration := 1800000
    snapDuration := 900000
    snapsPerSlot := 2
    eventMinHeight := 5 }

/-- Witness for C7: at `y = 10` the lookup skips the zero-extent slat 0 and
finds slat 1, whose extent is positive. -/
theorem positionToIndex_zero_extent_unmatchable_witness :
    positionToIndex zeroExtentState.slats 10 = some 1 ∧
    (∃ slat, zeroExtentState.slats.get? 1 = some slat ∧ 0 < slat.2 ∧ slat.2 ≠ 0) ∧
    zeroExtentState.slats.get? 0 = some (0, 0) ∧
    positionToIndex zeroExtentState.slats 10 ≠ some 0 := by
  have e : positionToIndex zeroExtentState.slats 10 = some 1 := by
    norm_num [positionToIndex, zeroExtentState]
  exact ⟨e, (positionToIndex_zero_extent_unmatchable zeroExtentState 10).1 1 e, rfl,
    (positionToIndex_zero_extent_unmatchable zeroExtentState 10).2 0 (0, 0) rfl rfl⟩

/-- C6: for a found (column, slat) pair, the hit's time range follows the
snap formula: `partial = (y − slatTop) / slatExtent`,
`localSnap = ⌊partial · snapsPerSlot⌋`,
`snapIndex = slatIndex · snapsPerSlot + localSnap`,
`start = dayStart + minTime + snapDuration · snapIndex`,
`end = start + snapDuration`, with the rect spanning the whole column and
slat; and in the spec's example (60-min slots, 15-min snaps → 4 snaps per
slot, slat index 2, `partial = 0.5`) the snap index is `10` and the time is
`minTime + 150` min (9 000 000 ms). -/
theorem positionToHit_snap_formula (st : TimeColsState) (x y : ℚ) (ci si : ℕ)
    (dayDate : ℚ) (slat col : ℚ × ℚ)
    (e1 : positionToIndex st.cols x = some ci)
    (e2 : positionToIndex st.slats y = some si)
    (h3 : st.cells.get? ci = some dayDate)
    (h4 : st.slats.get? si = some slat)
    (h5 : st.cols.get? ci = some col) :
    positionToHit st x y = some
      { col := ci
        rangeStart := dayDate + (st.minTime + st.snapDuration *
          ((((si : ℤ) * st.snapsPerSlot +
            ⌊(y - slat.1) / slat.2 * (st.snapsPerSlot : ℚ)⌋ : ℤ)) : ℚ))
        rangeEnd := dayDate + (st.minTime + st.snapDuration *
          ((((si : ℤ) * st.snapsPerSlot +
            ⌊(y - slat.1) / slat.2 * (st.snapsPerSlot : ℚ)⌋ : ℤ)) : ℚ)) +
          st.snapDuration
        relativeRect :=
          { left := col.1, right := col.1 + col.2
            top := slat.1, bottom := slat.1 + slat.2 } } ∧
    ((2 : ℤ) * snapDemoState.snapsPerSlot +
      ⌊(((115 : ℚ) - 100) / 30) * (snapDemoState.snapsPerSlot : ℚ)⌋ = 10) ∧
    snapDemoState.minTime + snapDemoState.snapDuration * ((10 : ℤ) : ℚ) =
      snapDemoState.minTime + 9000000 := by
  refine ⟨?_, by norm_num [snapDemoState], by norm_num [snapDemoState]⟩
  unfold positionToHit
  rw [e1, e2]
  dsimp only
  rw [h3, h4, h5]

/-- Witness for C6 at the snap-demo state: the pointer at `(50, 115)` sits
halfway down slat 2, and the hit's range starts at the cell date plus
`minTime + 150` min. -/
theorem positionToHit_snap_formula_witness :
    positionToIndex snapDemoState.cols 50 = some 0 ∧
    positionToIndex snapDemoState.slats 115 = some 2 ∧
    snapDemoState.cells.get? 0 = some 5 ∧
    snapDemoState.slats.get? 2 = some (100, 30) ∧
    snapDemoState.cols.get? 0 = some (0, 100) ∧
    positionToHit snapDemoState 50 115 = some
      { col := 0
        rangeStart := 5 + (snapDemoState.minTime + snapDemoState.snapDuration *
          ((((2 : ℕ) : ℤ) * snapDemoState.snapsPerSlot +
            ⌊((115 : ℚ) - (100, 30).1) / (100, 30).2 *
              (snapDemoState.snapsPerSlot : ℚ)⌋ : ℤ) : ℚ))
        rangeEnd := 5 + (snapDemoState.minTime + snapDemoState.snapDuration *
          ((((2 : ℕ) : ℤ) * snapDemoState.snapsPerSlot +
            ⌊((115 : ℚ) - (100, 30).1) / (100, 30).2 *
              (snapDemoState.snapsPerSlot : ℚ)⌋ : ℤ) : ℚ)) +
          snapDemoState.snapDuration
        relativeRect :=
          { left := (0, 100).1, right := (0, 100).1 + (0, 100).2
            top := (100, 30).1, bottom := (100, 30).1 + (100, 30).2 } } ∧
    ((2 : ℤ) * snapDemoState.snapsPerSlot +
      ⌊(((115 : ℚ) - 100) / 30) * (snapDemoState.snapsPerSlot : ℚ)⌋ = 10) := by
  have e1 : positionToIndex snapDemoState.cols 50 = some 0 := by
    norm_num [positionToIndex, snapDemoState]
  have e2 : positionToIndex snapDemoState.slats 115 = some 2 := by
    norm_num [positionToIndex, snapDemoState]
  have h := positionToHit_snap_formula snapDemoState 50 115 0 2 5 (100, 30) (0, 100)
    e1 e2 rfl rfl rfl
  exact ⟨e1, e2, rfl, rfl, rfl, h.1, h.2.1⟩

/-- C8: with a current date, the now-indicator renderer produces no marker
nodes at all (no per-column lines, no axis arrow) when the segment set is
empty — a defined, non-error outcome — and otherwise one line node per
segment's column followed by exactly one axis arrow node, all placed at the
single offset `computeDateTop(date)`. -/
theorem renderNowIndicator_nodes (st : TimeColsState) (d : ℚ) (segs : List TimeColsSeg) :
    (segs = [] → renderNowIndicator st (some d) segs = []) ∧
    (segs ≠ [] →
      renderNowIndicator st (some d) segs =
        segs.map (fun s =>
          { isArrow := false, col := some s.col, top := computeDateTop st d none }) ++
          [{ isArrow := true, col := none, top := computeDateTop st d none }] ∧
      (renderNowIndicator st (some d) segs).length = segs.length + 1 ∧
      ∀ node ∈ renderNowIndicator st (some d) segs,
        node.top = computeDateTop st d none) := by
  constructor
  · intro h
    subst h
    rfl
  · intro h
    have hlen : 0 < segs.length := List.length_pos.mpr h
    have heq : renderNowIndicator st (some d) segs =
        segs.map (fun s =>
          { isArrow := false, col := some s.col, top := computeDateTop st d none }) ++
          [{ isArrow := true, col := none, top := computeDateTop st d none }] := by
      unfold renderNowIndicator
      dsimp only
      rw [if_pos hlen]
    refine ⟨heq, ?_, ?_⟩
    · rw [heq]
      simp
    · intro node hnode
      rw [heq] at hnode
      rcases List.mem_append.mp hnode with hm | hm
      · rcases List.mem_map.mp hm with ⟨s, _, hs⟩
        rw [← hs]
      · rw [List.mem_singleton.mp hm]

/-- Witness for C8: a single segment in column 0 yields one line node and
one arrow node at the current-time offset; the empty set yields none. -/
theorem renderNowIndicator_nodes_witness :
    (([] : List TimeColsSeg) = [] →
      renderNowIndicator demoState (some 0) [] = []) ∧
    ([(⟨0, 0, 900000⟩ : TimeColsSeg)] ≠ []) ∧
    renderNowIndicator demoState (some 0) [⟨0, 0, 900000⟩] =
      [{ isArrow := false, col := some 0, top := computeDateTop demoState 0 none },
        { isArrow := true, col := none, top := computeDateTop demoState 0 none }] ∧
    (renderNowIndicator demoState (some 0) [⟨0, 0, 900000⟩]).length = 1 + 1 := by
  have h1 := (renderNowIndicator_nodes demoState 0 ([] : List TimeColsSeg)).1
  have h2 := (renderNowIndicator_nodes demoState 0 [⟨0, 0, 900000⟩]).2
    (List.cons_ne_nil _ _)
  refine ⟨h1, List.cons_ne_nil _ _, ?_, ?_⟩
  · rw [h2.1]
    rfl
  · rw [h2.2.1]
    rfl

/-- Witness for the amended C9 at the demo state. -/
theorem generateSegVerticalCss_pair_witness :
    computeSegVertical demoState ⟨0, 900000, 1200000⟩ = some (15, 20) ∧
    ((∃ dayDate rawBottom, demoState.cells.get? (0 : ℕ) = some dayDate ∧
      computeDateTop demoState 900000 (some dayDate) = some (15, 20).1 ∧
      computeDateTop demoState 1200000 (some dayDate) = some rawBottom ∧
      ((15 : ℚ), (20 : ℚ)).2 = max ((15, 20).1 + demoState.eventMinHeight) rawBottom) ∧
    generateSegVerticalCss (15, 20) = ((15, 20).1, -(15, 20).2)) := by
  have he : computeSegVertical demoState ⟨0, 900000, 1200000⟩ = some (15, 20) := by
    norm_num [computeSegVertical, computeDateTop, computeTimeTop,
      slatCoverageOf, slatIndexOf, jsGet, demoState]
  exact ⟨he, generateSegVerticalCss_pair demoState ⟨0, 900000, 1200000⟩ (15, 20) he⟩

end FC
